import Mathlib

/-!
Verification development for the global-shortcut engine of hyprwhspr
(src/lib/src/global_shortcuts.py).  The Python module is shallowly embedded:
pure string processing is modelled over lists of characters, the mutable
state of the GlobalShortcuts object becomes an explicit record threaded
through transition functions, timestamps are rationals (seconds), and the
dispatch of a callback is modelled as emission of a Callback value.
External collaborators (the evdev ecodes table, the operating system's
device list) are parameters of the corresponding functions.
-/

namespace Hyprwhspr

/-! ## Character and string helpers (models of the Python str methods used) -/

/-- Model of Python str.lower for one character (ASCII case mapping). -/
def lowerChar (c : Char) : Char :=
  if 65 ≤ c.toNat ∧ c.toNat ≤ 90 then Char.ofNat (c.toNat + 32) else c

/-- Model of Python str.upper for one character (ASCII case mapping). -/
def upperChar (c : Char) : Char :=
  if 97 ≤ c.toNat ∧ c.toNat ≤ 122 then Char.ofNat (c.toNat - 32) else c

/-- Model of Python str.lower on a string given as a character list. -/
def lowerStr (l : List Char) : List Char := l.map lowerChar

/-- Model of Python str.upper on a string given as a character list. -/
def upperStr (l : List Char) : List Char := l.map upperChar

/-- The whitespace characters stripped by Python str.strip. -/
def isSpaceChar (c : Char) : Bool :=
  c.toNat = 32 ∨ c.toNat = 9 ∨ c.toNat = 10 ∨ c.toNat = 13 ∨ c.toNat = 11 ∨ c.toNat = 12

/-- Model of Python str.strip (both ends). -/
def stripStr (l : List Char) : List Char :=
  ((l.dropWhile isSpaceChar).reverse.dropWhile isSpaceChar).reverse

/-- Model of the two replace calls removing angle brackets:
key_lower.replace with the bracket characters erased. -/
def removeAngles (l : List Char) : List Char :=
  l.filter (fun c => ¬ (c = '<' ∨ c = '>'))

/-- Model of Python split on the plus character: always returns at least one
(possibly empty) part, like str.split with an explicit separator. -/
def splitPlus : List Char → List (List Char)
  | [] => [[]]
  | c :: cs =>
    if c = '+' then [] :: splitPlus cs
    else
      match splitPlus cs with
      | [] => [[c]]
      | t :: ts => (c :: t) :: ts

/-- Model of str.startswith for the fixed four-character KEY underscore head. -/
def startsWithKEY : List Char → Bool
  | 'K' :: 'E' :: 'Y' :: '_' :: _ => true
  | _ => false

/-! ## The key-alias table (KEY_ALIASES of the source, transcribed verbatim) -/

/-- The KEY_ALIASES dictionary of the source, as an association list in
source order.  Keys are the user-friendly alias strings, values the evdev
KEY names. -/
def KEY_ALIASES : List (String × String) := [
  ("ctrl", "KEY_LEFTCTRL"), ("control", "KEY_LEFTCTRL"), ("lctrl", "KEY_LEFTCTRL"),
  ("alt", "KEY_LEFTALT"), ("lalt", "KEY_LEFTALT"),
  ("shift", "KEY_LEFTSHIFT"), ("lshift", "KEY_LEFTSHIFT"),
  ("super", "KEY_LEFTMETA"), ("meta", "KEY_LEFTMETA"), ("lsuper", "KEY_LEFTMETA"),
  ("win", "KEY_LEFTMETA"), ("windows", "KEY_LEFTMETA"), ("cmd", "KEY_LEFTMETA"),
  ("rctrl", "KEY_RIGHTCTRL"), ("rightctrl", "KEY_RIGHTCTRL"),
  ("ralt", "KEY_RIGHTALT"), ("rightalt", "KEY_RIGHTALT"),
  ("rshift", "KEY_RIGHTSHIFT"), ("rightshift", "KEY_RIGHTSHIFT"),
  ("rsuper", "KEY_RIGHTMETA"), ("rightsuper", "KEY_RIGHTMETA"), ("rmeta", "KEY_RIGHTMETA"),
  ("enter", "KEY_ENTER"), ("return", "KEY_ENTER"),
  ("backspace", "KEY_BACKSPACE"), ("bksp", "KEY_BACKSPACE"),
  ("tab", "KEY_TAB"),
  ("caps", "KEY_CAPSLOCK"), ("capslock", "KEY_CAPSLOCK"),
  ("esc", "KEY_ESC"), ("escape", "KEY_ESC"),
  ("space", "KEY_SPACE"), ("spacebar", "KEY_SPACE"),
  ("delete", "KEY_DELETE"), ("del", "KEY_DELETE"),
  ("insert", "KEY_INSERT"), ("ins", "KEY_INSERT"),
  ("home", "KEY_HOME"),
  ("end", "KEY_END"),
  ("pageup", "KEY_PAGEUP"), ("pgup", "KEY_PAGEUP"),
  ("pagedown", "KEY_PAGEDOWN"), ("pgdn", "KEY_PAGEDOWN"), ("pgdown", "KEY_PAGEDOWN"),
  ("up", "KEY_UP"), ("uparrow", "KEY_UP"),
  ("down", "KEY_DOWN"), ("downarrow", "KEY_DOWN"),
  ("left", "KEY_LEFT"), ("leftarrow", "KEY_LEFT"),
  ("right", "KEY_RIGHT"), ("rightarrow", "KEY_RIGHT"),
  ("numlock", "KEY_NUMLOCK"),
  ("scrolllock", "KEY_SCROLLLOCK"), ("scroll", "KEY_SCROLLLOCK"),
  ("f1", "KEY_F1"), ("f2", "KEY_F2"), ("f3", "KEY_F3"), ("f4", "KEY_F4"),
  ("f5", "KEY_F5"), ("f6", "KEY_F6"), ("f7", "KEY_F7"), ("f8", "KEY_F8"),
  ("f9", "KEY_F9"), ("f10", "KEY_F10"), ("f11", "KEY_F11"), ("f12", "KEY_F12"),
  ("f13", "KEY_F13"), ("f14", "KEY_F14"), ("f15", "KEY_F15"), ("f16", "KEY_F16"),
  ("f17", "KEY_F17"), ("f18", "KEY_F18"), ("f19", "KEY_F19"), ("f20", "KEY_F20"),
  ("f21", "KEY_F21"), ("f22", "KEY_F22"), ("f23", "KEY_F23"), ("f24", "KEY_F24"),
  ("kp0", "KEY_KP0"), ("kp1", "KEY_KP1"), ("kp2", "KEY_KP2"), ("kp3", "KEY_KP3"),
  ("kp4", "KEY_KP4"), ("kp5", "KEY_KP5"), ("kp6", "KEY_KP6"), ("kp7", "KEY_KP7"),
  ("kp8", "KEY_KP8"), ("kp9", "KEY_KP9"),
  ("kpenter", "KEY_KPENTER"), ("kpplus", "KEY_KPPLUS"), ("kpminus", "KEY_KPMINUS"),
  ("kpmultiply", "KEY_KPASTERISK"), ("kpdivide", "KEY_KPSLASH"),
  ("kpdot", "KEY_KPDOT"), ("kpperiod", "KEY_KPDOT"),
  ("mute", "KEY_MUTE"), ("volumemute", "KEY_MUTE"),
  ("volumeup", "KEY_VOLUMEUP"), ("volup", "KEY_VOLUMEUP"),
  ("volumedown", "KEY_VOLUMEDOWN"), ("voldown", "KEY_VOLUMEDOWN"),
  ("play", "KEY_PLAYPAUSE"), ("playpause", "KEY_PLAYPAUSE"),
  ("stop", "KEY_STOPCD"), ("mediastop", "KEY_STOPCD"),
  ("nextsong", "KEY_NEXTSONG"), ("next", "KEY_NEXTSONG"),
  ("previoussong", "KEY_PREVIOUSSONG"), ("prev", "KEY_PREVIOUSSONG"),
  ("browser", "KEY_WWW"),
  ("browserback", "KEY_BACK"),
  ("browserforward", "KEY_FORWARD"),
  ("refresh", "KEY_REFRESH"),
  ("browsersearch", "KEY_SEARCH"),
  ("favorites", "KEY_BOOKMARKS"),
  ("menu", "KEY_MENU"),
  ("print", "KEY_PRINT"), ("printscreen", "KEY_SYSRQ"), ("prtsc", "KEY_SYSRQ"),
  ("pause", "KEY_PAUSE"), ("break", "KEY_PAUSE")]

/-- Dictionary lookup in KEY_ALIASES (Python dict access; the table has no
repeated key, so first match is the dictionary's value). -/
def aliasLookup (s : List Char) : Option (List Char) :=
  (KEY_ALIASES.find? (fun p => p.1.data = s)).map (fun p => p.2.data)

/-- The evdev constant ecodes.KEY_F12 (Linux input key code of F12). -/
def KEY_F12 : ℕ := 88

/-! ## Key-string resolution and combination parsing -/

/-- Embedding of GlobalShortcuts._string_to_keycode.  The parameter em is the
external ecodes.ecodes dictionary of the evdev library (name to key code),
which is not part of this repository. -/
def string_to_keycode (em : List Char → Option ℕ) (key_string : List Char) : Option ℕ :=
  let ks := stripStr (lowerStr key_string)
  let key_name :=
    match aliasLookup ks with
    | some n => n
    | none =>
      let u := upperStr ks
      if startsWithKEY u then u else 'K' :: 'E' :: 'Y' :: '_' :: u
  em key_name

/-- The token list _parse_key_combination derives from the lowered, stripped,
de-bracketed input, factored through the lowering so that case invariance is
visible: parsing depends on the input only through lowerStr of its data. -/
def tokensOfLower (low : List Char) : List (List Char) :=
  splitPlus (removeAngles (stripStr low))

/-- The plus-separated parts of a combination string, as the source computes
them: lower, strip, remove angle brackets, split on plus. -/
def comboTokens (key_string : String) : List (List Char) :=
  tokensOfLower (lowerStr key_string.data)

/-- The set of key codes accumulated by the parsing loop of
_parse_key_combination (each part stripped and resolved; unresolvable parts
are skipped). -/
def parsedKeys (em : List Char → Option ℕ) (key_string : String) : Finset ℕ :=
  (comboTokens key_string).foldl
    (fun acc part =>
      match string_to_keycode em (stripStr part) with
      | some c => insert c acc
      | none => acc) ∅

/-- Embedding of GlobalShortcuts._parse_key_combination: the accumulated key
set, or the F12 singleton when no token resolved. -/
def parse_key_combination (em : List Char → Option ℕ) (key_string : String) : Finset ℕ :=
  if parsedKeys em key_string = ∅ then {KEY_F12} else parsedKeys em key_string

/-- A concrete fragment of the evdev ecodes table (Linux input event codes),
used to instantiate the parsing theorems on concrete inputs. -/
def ecodesList : List (String × ℕ) := [
  ("KEY_ESC", 1), ("KEY_ENTER", 28), ("KEY_LEFTCTRL", 29),
  ("KEY_A", 30), ("KEY_S", 31), ("KEY_D", 32), ("KEY_F", 33),
  ("KEY_LEFTSHIFT", 42), ("KEY_LEFTALT", 56), ("KEY_SPACE", 57),
  ("KEY_F12", 88), ("KEY_LEFTMETA", 125)]

/-- Lookup in the concrete ecodes fragment. -/
def ecodesTable (s : List Char) : Option ℕ :=
  (ecodesList.find? (fun p => p.1.data = s)).map (fun p => p.2)

/-! ## The engine state and its transitions

Timestamps are modelled in integer milliseconds: the source uses float
seconds from time.time with a 0.5 second debounce, which is 500 ms; only
orderings and differences of timestamps matter to the logic. -/

/-- self.debounce_time of the source (0.5 s), in milliseconds. -/
def debounce_time : ℤ := 500

/-- A dispatched callback: self.callback (activation) or
self.release_callback (deactivation), as dispatched by _trigger_callback
and _trigger_release_callback. -/
inductive Callback
  | activation
  | deactivation
deriving DecidableEq, Repr

/-- The keystate of a categorized EV_KEY event: key_down (value 1), key_up
(value 0) or key_hold (value 2, autorepeat; _process_event ignores it). -/
inductive KeyState
  | key_down
  | key_up
  | key_hold
deriving DecidableEq, Repr

/-- One keyboard event as _process_event sees it: the key code, the
keystate, and the wall-clock time (ms) at which it is processed. -/
structure KeyEvent where
  code : ℕ
  keystate : KeyState
  time : ℤ
deriving DecidableEq, Repr

/-- The mutable state of a GlobalShortcuts object that the shortcut state
machine reads and writes (device handles are abstracted to a list of
identifiers; callbacks are modelled by emission, see Callback). -/
structure GS where
  primary_key : String
  target_keys : Finset ℕ
  pressed_keys : Finset ℕ
  combination_active : Bool
  last_trigger_time : ℤ
  last_release_time : ℤ
  is_running : Bool
  devices : List ℕ
deriving DecidableEq

/-- The match test of _check_shortcut_combination: exact equality for a
single-key target, subset test otherwise. -/
def keysMatch (target pressed : Finset ℕ) : Bool :=
  if target.card = 1 then decide (target = pressed)
  else decide (target ⊆ pressed)

/-- Embedding of _check_shortcut_combination, called with the current time;
returns the new state and the callbacks dispatched. -/
def check_shortcut_combination (s : GS) (current_time : ℤ) : GS × List Callback :=
  if keysMatch s.target_keys s.pressed_keys then
    if s.combination_active = false ∧ debounce_time < current_time - s.last_trigger_time then
      ({ s with last_trigger_time := current_time, combination_active := true },
        [Callback.activation])
    else (s, [])
  else ({ s with combination_active := false }, [])

/-- Embedding of _check_combination_release, called with the value of
combination_active captured before the key was removed and the current
time. -/
def check_combination_release (s : GS) (was_combination_active : Bool)
    (current_time : ℤ) : GS × List Callback :=
  if was_combination_active = true ∧ ¬ s.target_keys ⊆ s.pressed_keys then
    if debounce_time < current_time - s.last_release_time then
      ({ s with last_release_time := current_time, combination_active := false },
        [Callback.deactivation])
    else (s, [])
  else (s, [])

/-- Embedding of _process_event for an EV_KEY event: key_down inserts the
code and checks the combination, key_up captures was_combination_active,
removes the code and checks the release; any other keystate is ignored. -/
def process_event (s : GS) (e : KeyEvent) : GS × List Callback :=
  match e.keystate with
  | KeyState.key_down =>
    check_shortcut_combination
      { s with pressed_keys := insert e.code s.pressed_keys } e.time
  | KeyState.key_up =>
    check_combination_release
      { s with pressed_keys := s.pressed_keys.erase e.code }
      s.combination_active e.time
  | KeyState.key_hold => (s, [])

/-- Sequential processing of a list of events (the single poll loop),
collecting each dispatched callback with the time of its event. -/
def processEvents : GS → List KeyEvent → GS × List (ℤ × Callback)
  | s, [] => (s, [])
  | s, e :: es =>
    let p := process_event s e
    let q := processEvents p.1 es
    (q.1, p.2.map (fun c => (e.time, c)) ++ q.2)

/-- The times of the activation callbacks in a dispatch log, in order. -/
def activationTimes (l : List (ℤ × Callback)) : List ℤ :=
  (l.filter (fun p => p.2 = Callback.activation)).map Prod.fst

/-- Embedding of GlobalShortcuts.stop: an early return when not running;
otherwise the poll loop is signalled and joined, the devices are closed and
removed, is_running is cleared and the pressed-key set is emptied.  No other
field is written. -/
def stop (s : GS) : GS :=
  if s.is_running = false then s
  else { s with devices := [], is_running := false, pressed_keys := ∅ }

/-- Embedding of GlobalShortcuts.update_shortcut: parses the new
combination, replaces primary_key and target_keys, returns True.  The
except-branch of the source is unreachable because parsing is total (it
never raises). -/
def update_shortcut (em : List Char → Option ℕ) (s : GS) (new_key : String) :
    GS × Bool :=
  ({ s with primary_key := new_key,
            target_keys := parse_key_combination em new_key }, true)

/-! ## Device discovery -/

/-- What discovery observes about one enumerated input device: its path,
whether _is_keyboard_device accepts it, and whether the grab/ungrab access
probe succeeds. -/
structure RawDevice where
  path : String
  isKeyboard : Bool
  grabOk : Bool
deriving DecidableEq, Repr

/-- The device loop of _discover_keyboards: keep devices that pass the
keyboard heuristic and the grab probe; after adding the selected device the
loop breaks.  Returns the accepted device paths in order. -/
def acceptDevices (sel : Option String) : List RawDevice → List String
  | [] => []
  | d :: ds =>
    if d.isKeyboard then
      if d.grabOk then
        if sel = some d.path then [d.path]
        else d.path :: acceptDevices sel ds
      else acceptDevices sel ds
    else acceptDevices sel ds

/-- Embedding of _discover_keyboards over the enumerated device list: when a
device path is selected, the list is filtered to it first, and only when the
filter leaves nothing does discovery warn and fall back to the full list.
The boolean records whether that fallback warning was printed. -/
def discover_keyboards (all : List RawDevice) (sel : Option String) :
    List String × Bool :=
  match sel with
  | none => (acceptDevices none all, false)
  | some p =>
    let filtered := all.filter (fun d => d.path = p)
    if filtered = [] then (acceptDevices (some p) all, true)
    else (acceptDevices (some p) filtered, false)

/-! ## Concrete instances used by witnesses and counterexamples -/

/-- A running engine state, combination currently active (target F12 held). -/
def sRun : GS := ⟨"f12", {88}, {88}, true, 1000, 0, true, [1]⟩

/-- A running engine with the F12 combination active, about to see a release. -/
def sRel : GS := ⟨"f12", {88}, {88}, true, 0, 0, true, [1]⟩

/-- The release of F12, one second in. -/
def eRel : KeyEvent := ⟨88, KeyState.key_up, 1000⟩

/-- An active single-key state that is about to see an unrelated press. -/
def sDown : GS := ⟨"f12", {88}, {88}, true, 0, 0, true, [1]⟩

/-- A press of left shift (code 42) while the F12 combination is active. -/
def eDown : KeyEvent := ⟨42, KeyState.key_down, 1000⟩

/-- An idle engine listening for F12. -/
def sIdle : GS := ⟨"f12", {88}, ∅, false, 0, 0, true, [1]⟩

/-- A quick press-release-press of F12: the second press falls inside the
debounce window of the first activation. -/
def esQuick : List KeyEvent :=
  [⟨88, KeyState.key_down, 1000⟩, ⟨88, KeyState.key_up, 1100⟩,
   ⟨88, KeyState.key_down, 1200⟩]

/-- A press of F12 only 100 ms after the last activation timestamp. -/
def eQuick : KeyEvent := ⟨88, KeyState.key_down, 100⟩

/-- A selected device that is present but fails the grab probe. -/
def devProbeFail : RawDevice := ⟨"p", true, false⟩

/-- A second, accessible keyboard device. -/
def devOther : RawDevice := ⟨"q", true, true⟩

/-- An accessible keyboard, enumerated while some other path is selected. -/
def devKb : RawDevice := ⟨"kb", true, true⟩

end Hyprwhspr

namespace Hyprwhspr

/-! ## Claim theorems -/

/-- C1, counterexample.  The claim says the combination state is Inactive
after stop(); on sRun (running, combination_active) stop() leaves
combination_active true: stop clears only the pressed-key set. -/
theorem stop_keeps_active_counterexample :
    (stop sRun).combination_active = true ∧ sRun.is_running = true := by decide

/-- C1, amended.  After stop() on a running engine the pressed-key set is
empty, the engine is stopped and the devices are closed, but
combination_active and both debounce timestamps are unchanged (not reset);
stop() on a non-running engine changes no state, and stop is idempotent. -/
theorem stop_spec (s : GS) :
    (s.is_running = true →
      (stop s).pressed_keys = ∅ ∧ (stop s).is_running = false ∧
      (stop s).devices = [] ∧
      (stop s).combination_active = s.combination_active ∧
      (stop s).last_trigger_time = s.last_trigger_time ∧
      (stop s).last_release_time = s.last_release_time ∧
      (stop s).target_keys = s.target_keys) ∧
    (s.is_running = false → stop s = s) ∧
    stop (stop s) = stop s := by
  cases hr : s.is_running <;> simp [stop, hr]

/-- C1, witness: the amended behaviour at the concrete running state sRun. -/
theorem stop_spec_witness :
    ((stop sRun).pressed_keys = ∅ ∧ (stop sRun).is_running = false ∧
      (stop sRun).devices = [] ∧
      (stop sRun).combination_active = sRun.combination_active ∧
      (stop sRun).last_trigger_time = sRun.last_trigger_time ∧
      (stop sRun).last_release_time = sRun.last_release_time ∧
      (stop sRun).target_keys = sRun.target_keys) ∧
    stop (stop sRun) = stop sRun :=
  ⟨(stop_spec sRun).1 rfl, (stop_spec sRun).2.2⟩

/-- C4.  The match predicate evaluated on every Down event: with a
one-element target it holds iff the pressed set equals the target; with a
target of two or more keys it holds iff the target is a subset of the
pressed set. -/
theorem keysMatch_policy (target pressed : Finset ℕ) :
    (target.card = 1 → (keysMatch target pressed = true ↔ pressed = target)) ∧
    (2 ≤ target.card → (keysMatch target pressed = true ↔ target ⊆ pressed)) := by
  constructor
  · intro h1
    simp [keysMatch, h1, eq_comm]
  · intro h2
    have : target.card ≠ 1 := by omega
    simp [keysMatch, this]

/-- C4, witness: an extra held key blocks a single-key target but not a
two-key target. -/
theorem keysMatch_policy_witness :
    (keysMatch {88} ({88, 42} : Finset ℕ) = true ↔ ({88, 42} : Finset ℕ) = {88}) ∧
    (keysMatch {29, 32} ({29, 32, 42} : Finset ℕ) = true ↔
      ({29, 32} : Finset ℕ) ⊆ {29, 32, 42}) :=
  ⟨(keysMatch_policy {88} {88, 42}).1 (by decide),
   (keysMatch_policy {29, 32} {29, 32, 42}).2 (by decide)⟩

/-- C6.  A Down event after which the match predicate is false always drives
the combination state to Inactive, whatever the prior state and with no
debounce condition, and dispatches nothing. -/
theorem nonmatching_down_resets (s : GS) (e : KeyEvent)
    (hdown : e.keystate = KeyState.key_down)
    (hnomatch : keysMatch s.target_keys (insert e.code s.pressed_keys) = false) :
    (process_event s e).1.combination_active = false ∧
    (process_event s e).2 = [] := by
  obtain ⟨c, ks, t⟩ := e
  cases ks with
  | key_down => simp_all [process_event, check_shortcut_combination]
  | key_up => cases hdown
  | key_hold => cases hdown

/-- C6, witness: pressing left shift while single-key F12 is active makes
the exact match fail and resets the state. -/
theorem nonmatching_down_resets_witness :
    (process_event sDown eDown).1.combination_active = false ∧
    (process_event sDown eDown).2 = [] :=
  nonmatching_down_resets sDown eDown rfl (by decide)

/-- C8.  update_shortcut always returns True (parsing is total, the except
branch is dead) and writes only primary_key and target_keys: the pressed-key
set, the active flag, both debounce timestamps, the running flag and the
device list are untouched. -/
theorem update_shortcut_frame (em : List Char → Option ℕ) (s : GS) (k : String) :
    (update_shortcut em s k).2 = true ∧
    (update_shortcut em s k).1.primary_key = k ∧
    (update_shortcut em s k).1.target_keys = parse_key_combination em k ∧
    (update_shortcut em s k).1.pressed_keys = s.pressed_keys ∧
    (update_shortcut em s k).1.combination_active = s.combination_active ∧
    (update_shortcut em s k).1.last_trigger_time = s.last_trigger_time ∧
    (update_shortcut em s k).1.last_release_time = s.last_release_time ∧
    (update_shortcut em s k).1.is_running = s.is_running ∧
    (update_shortcut em s k).1.devices = s.devices :=
  ⟨rfl, rfl, rfl, rfl, rfl, rfl, rfl, rfl, rfl⟩

/-- C10.  A Down event never dispatches the deactivation callback and never
writes the deactivation debounce timestamp, in particular not when the
conservative reset drives the state from Active to Inactive. -/
theorem down_no_deactivation (s : GS) (e : KeyEvent)
    (hdown : e.keystate = KeyState.key_down) :
    Callback.deactivation ∉ (process_event s e).2 ∧
    (process_event s e).1.last_release_time = s.last_release_time := by
  obtain ⟨c, ks, t⟩ := e
  cases ks with
  | key_down =>
    simp only [process_event, check_shortcut_combination]
    split_ifs <;> simp
  | key_up => cases hdown
  | key_hold => cases hdown

/-- C10, witness: the unrelated press eDown resets the active state sDown
without a deactivation callback or a release-timestamp write. -/
theorem down_no_deactivation_witness :
    Callback.deactivation ∉ (process_event sDown eDown).2 ∧
    (process_event sDown eDown).1.last_release_time = sDown.last_release_time :=
  down_no_deactivation sDown eDown rfl

/-- C2.  While the combination is Active, an Up event whose removal breaks
the target-subset requirement, arriving more than the debounce window after
the last deactivation, drives the state to Inactive and dispatches exactly
one deactivation; an Up event of a non-target key while the target stays
fully held dispatches no deactivation. -/
theorem release_edge_spec (s : GS) (e : KeyEvent)
    (hup : e.keystate = KeyState.key_up) :
    (s.combination_active = true →
      ¬ s.target_keys ⊆ s.pressed_keys.erase e.code →
      debounce_time < e.time - s.last_release_time →
      (process_event s e).1.combination_active = false ∧
      (process_event s e).2 = [Callback.deactivation]) ∧
    (e.code ∉ s.target_keys → s.target_keys ⊆ s.pressed_keys →
      Callback.deactivation ∉ (process_event s e).2) := by
  obtain ⟨c, ks, t⟩ := e
  cases ks with
  | key_down => cases hup
  | key_up =>
    constructor
    · intro hact hnsub htime
      simp_all [process_event, check_combination_release]
    · intro hc hsub
      have hs : s.target_keys ⊆ s.pressed_keys.erase c :=
        Finset.subset_erase.mpr ⟨hsub, hc⟩
      simp [process_event, check_combination_release, hs]
  | key_hold => cases hup

/-- C2, witness: releasing F12 one second into the active state fires the
deactivation once; the amended non-target half is vacuously exercised at
the same input. -/
theorem release_edge_spec_witness :
    (sRel.combination_active = true →
      ¬ sRel.target_keys ⊆ sRel.pressed_keys.erase eRel.code →
      debounce_time < eRel.time - sRel.last_release_time →
      (process_event sRel eRel).1.combination_active = false ∧
      (process_event sRel eRel).2 = [Callback.deactivation]) ∧
    (eRel.code ∉ sRel.target_keys → sRel.target_keys ⊆ sRel.pressed_keys →
      Callback.deactivation ∉ (process_event sRel eRel).2) :=
  release_edge_spec sRel eRel rfl

/-- Helper: one processed event dispatches nothing, one activation or one
deactivation. -/
theorem process_event_cbs_cases (s : GS) (e : KeyEvent) :
    (process_event s e).2 = [] ∨
    (process_event s e).2 = [Callback.activation] ∨
    (process_event s e).2 = [Callback.deactivation] := by
  obtain ⟨c, ks, t⟩ := e
  cases ks with
  | key_down =>
    simp only [process_event, check_shortcut_combination]
    split_ifs <;> simp
  | key_up =>
    simp only [process_event, check_combination_release]
    split_ifs <;> simp
  | key_hold => simp [process_event]

/-- Helper: an activation is dispatched only from a step whose state was
Inactive and whose time is more than the debounce window past the last
activation, and the step then records its own time as the last
activation. -/
theorem act_fired_bound (s : GS) (e : KeyEvent)
    (h : Callback.activation ∈ (process_event s e).2) :
    s.combination_active = false ∧
    debounce_time < e.time - s.last_trigger_time ∧
    (process_event s e).1.last_trigger_time = e.time := by
  obtain ⟨c, ks, t⟩ := e
  cases ks with
  | key_down =>
    simp only [process_event, check_shortcut_combination] at h ⊢
    split_ifs at h ⊢ with h1 h2
    · exact ⟨h2.1, h2.2, rfl⟩
    · simp at h
    · simp at h
  | key_up =>
    simp only [process_event, check_combination_release] at h
    split_ifs at h <;> simp at h
  | key_hold => simp [process_event] at h

/-- Helper: a step that dispatches no activation leaves the activation
debounce timestamp unchanged. -/
theorem no_act_last_trigger (s : GS) (e : KeyEvent)
    (h : Callback.activation ∉ (process_event s e).2) :
    (process_event s e).1.last_trigger_time = s.last_trigger_time := by
  obtain ⟨c, ks, t⟩ := e
  cases ks with
  | key_down =>
    simp only [process_event, check_shortcut_combination] at h ⊢
    split_ifs at h ⊢ with h1 h2
    · simp at h
    · rfl
    · rfl
  | key_up =>
    simp only [process_event, check_combination_release] at h ⊢
    split_ifs <;> rfl
  | key_hold => rfl

/-- Helper: activationTimes distributes over concatenation of logs. -/
theorem activationTimes_append (l₁ l₂ : List (ℤ × Callback)) :
    activationTimes (l₁ ++ l₂) = activationTimes l₁ ++ activationTimes l₂ := by
  simp [activationTimes]

/-- Helper: the first activation of a run comes more than the debounce
window after the initial last-activation timestamp. -/
theorem head_act_bound :
    ∀ (es : List KeyEvent) (s : GS) (t : ℤ) (rest : List ℤ),
      activationTimes (processEvents s es).2 = t :: rest →
      debounce_time < t - s.last_trigger_time := by
  intro es
  induction es with
  | nil => intro s t rest h; simp [processEvents, activationTimes] at h
  | cons e es ih =>
    intro s t rest h
    simp only [processEvents] at h
    rw [activationTimes_append] at h
    rcases process_event_cbs_cases s e with hc | hc | hc
    · rw [hc] at h
      simp only [List.map_nil] at h
      rw [show activationTimes ([] : List (ℤ × Callback)) = [] from rfl,
        List.nil_append] at h
      have hrec := ih (process_event s e).1 t rest h
      rwa [no_act_last_trigger s e (by rw [hc]; simp)] at hrec
    · rw [hc] at h
      simp only [List.map_cons, List.map_nil] at h
      rw [show activationTimes [(e.time, Callback.activation)] = [e.time] from rfl] at h
      have hb := act_fired_bound s e (by rw [hc]; simp)
      injection h with h1 h2
      rw [← h1]
      exact hb.2.1
    · rw [hc] at h
      simp only [List.map_cons, List.map_nil] at h
      rw [show activationTimes [(e.time, Callback.deactivation)] = [] from rfl,
        List.nil_append] at h
      have hrec := ih (process_event s e).1 t rest h
      rwa [no_act_last_trigger s e (by rw [hc]; simp)] at hrec

/-- Helper: in any run, consecutive dispatched activations are more than
the debounce window apart. -/
theorem chain_act :
    ∀ (es : List KeyEvent) (s : GS),
      List.Chain' (fun t₁ t₂ => debounce_time < t₂ - t₁)
        (activationTimes (processEvents s es).2) := by
  intro es
  induction es with
  | nil => intro s; simp [processEvents, activationTimes]
  | cons e es ih =>
    intro s
    simp only [processEvents]
    rw [activationTimes_append]
    rcases process_event_cbs_cases s e with hc | hc | hc
    · rw [hc]
      simp only [List.map_nil]
      rw [show activationTimes ([] : List (ℤ × Callback)) = [] from rfl,
        List.nil_append]
      exact ih (process_event s e).1
    · rw [hc]
      simp only [List.map_cons, List.map_nil]
      rw [show activationTimes [(e.time, Callback.activation)] = [e.time] from rfl]
      rw [List.singleton_append]
      refine List.chain'_cons'.mpr ⟨?_, ih (process_event s e).1⟩
      intro b hb
      have hfired := act_fired_bound s e (by rw [hc]; simp)
      cases hl : activationTimes (processEvents (process_event s e).1 es).2 with
      | nil => rw [hl] at hb; simp at hb
      | cons x r =>
        rw [hl] at hb
        simp only [List.head?_cons, Option.mem_def, Option.some.injEq] at hb
        subst hb
        have := head_act_bound es (process_event s e).1 x r hl
        rwa [hfired.2.2] at this
    · rw [hc]
      simp only [List.map_cons, List.map_nil]
      rw [show activationTimes [(e.time, Callback.deactivation)] = [] from rfl,
        List.nil_append]
      exact ih (process_event s e).1

/-- C3.  A Down event processed while the state is Active, or no more than
the debounce window after the last activation timestamp, dispatches no
activation (and while Active dispatches nothing at all, covering key
repeat); and in any run the dispatched activations are pairwise more than
the debounce window apart, so of two matching activations within the
window only the first fires. -/
theorem activation_debounce_spec (s : GS) (e : KeyEvent) (es : List KeyEvent)
    (hdown : e.keystate = KeyState.key_down) :
    ((s.combination_active = true ∨ e.time - s.last_trigger_time ≤ debounce_time) →
      Callback.activation ∉ (process_event s e).2) ∧
    (s.combination_active = true → (process_event s e).2 = []) ∧
    List.Chain' (fun t₁ t₂ => debounce_time < t₂ - t₁)
      (activationTimes (processEvents s es).2) := by
  refine ⟨?_, ?_, chain_act es s⟩
  · intro hor hmem
    obtain ⟨hact, hb, -⟩ := act_fired_bound s e hmem
    rcases hor with hor | hor
    · rw [hact] at hor; cases hor
    · omega
  · intro hact
    obtain ⟨c, ks, t⟩ := e
    cases ks with
    | key_down =>
      simp only [process_event, check_shortcut_combination]
      split_ifs with h1 h2
      · rw [hact] at h2; simp at h2
      · rfl
      · rfl
    | key_up => cases hdown
    | key_hold => cases hdown

/-- C3, witness: at the idle state 100 ms after the last activation the
press eQuick is suppressed, and the quick press-release-press run esQuick
keeps its activations more than 500 ms apart. -/
theorem activation_debounce_witness :
    ((sIdle.combination_active = true ∨
        eQuick.time - sIdle.last_trigger_time ≤ debounce_time) →
      Callback.activation ∉ (process_event sIdle eQuick).2) ∧
    (sIdle.combination_active = true → (process_event sIdle eQuick).2 = []) ∧
    List.Chain' (fun t₁ t₂ => debounce_time < t₂ - t₁)
      (activationTimes (processEvents sIdle esQuick).2) :=
  activation_debounce_spec sIdle eQuick esQuick rfl

/-- Helper: when no enumerated device carries the selected path, the break
test of the device loop never triggers, so the loop behaves as unselected
discovery. -/
theorem accept_sel_absent (p : String) :
    ∀ (l : List RawDevice), (∀ d ∈ l, d.path ≠ p) →
      acceptDevices (some p) l = acceptDevices none l := by
  intro l
  induction l with
  | nil => intro _; rfl
  | cons d ds ih =>
    intro h
    have hd : ¬ (some p = some d.path) := by
      simp only [Option.some.injEq]
      exact fun hpd => h d (by simp) hpd.symm
    have hnone : ¬ ((none : Option String) = some d.path) := by simp
    have hds := fun x hx => h x (List.mem_cons_of_mem d hx)
    simp only [acceptDevices, hd, hnone, if_false]
    split_ifs <;> simp [ih hds]

/-- C5, counterexample.  The selected path "p" is enumerated but its grab
probe fails: discovery ends with no devices and no fallback, while
unfiltered discovery would have accepted "q" — so probe failure does not
fall back to all enumerated devices as the claim states. -/
theorem discover_probe_fail_counterexample :
    (discover_keyboards [devProbeFail, devOther] (some "p")).1 = [] ∧
    (discover_keyboards [devProbeFail, devOther] (some "p")).2 = false ∧
    (discover_keyboards [devProbeFail, devOther] none).1 = ["q"] := by decide

/-- C5, amended.  The warning-and-fallback to all enumerated devices
happens exactly when the selected path is absent from the enumeration; a
selected device that is present but fails the keyboard heuristic or the
access probe is simply dropped, without fallback. -/
theorem discover_fallback_absent (all : List RawDevice) (p : String)
    (habs : ∀ d ∈ all, d.path ≠ p) :
    (discover_keyboards all (some p)).2 = true ∧
    (discover_keyboards all (some p)).1 = (discover_keyboards all none).1 := by
  have hfil : all.filter (fun d => d.path = p) = [] := by
    rw [List.filter_eq_nil_iff]
    intro d hd
    simp [habs d hd]
  simp [discover_keyboards, hfil, accept_sel_absent p all habs]

/-- C5, witness: a selected path absent from a one-device enumeration makes
discovery warn and accept the same devices as unfiltered discovery. -/
theorem discover_fallback_absent_witness :
    (discover_keyboards [devKb] (some "x")).2 = true ∧
    (discover_keyboards [devKb] (some "x")).1 =
      (discover_keyboards [devKb] none).1 :=
  discover_fallback_absent [devKb] "x" (by decide)

/-- Helper: when every token of the combination fails to resolve, the
parsing loop accumulates nothing. -/
theorem parsedKeys_eq_empty (em : List Char → Option ℕ) (s : String)
    (h : ∀ p ∈ comboTokens s, string_to_keycode em (stripStr p) = none) :
    parsedKeys em s = ∅ := by
  unfold parsedKeys
  suffices haux : ∀ (l : List (List Char)),
      (∀ p ∈ l, string_to_keycode em (stripStr p) = none) →
      ∀ acc : Finset ℕ,
        l.foldl (fun acc part =>
          match string_to_keycode em (stripStr part) with
          | some c => insert c acc
          | none => acc) acc = acc by
    exact haux (comboTokens s) h ∅
  intro l
  induction l with
  | nil => intro _ _; rfl
  | cons q qs ih =>
    intro hq acc
    have h1 : string_to_keycode em (stripStr q) = none := hq q (by simp)
    simp only [List.foldl_cons, h1]
    exact ih (fun p hp => hq p (List.mem_cons_of_mem q hp)) acc

/-- C7.  Parsing any combination string yields a non-empty target set:
unresolvable tokens are skipped, and when no token resolves the result is
exactly the F12 singleton. -/
theorem parse_always_nonempty (em : List Char → Option ℕ) (s : String) :
    (parse_key_combination em s).Nonempty ∧
    ((∀ p ∈ comboTokens s, string_to_keycode em (stripStr p) = none) →
      parse_key_combination em s = {KEY_F12}) := by
  constructor
  · unfold parse_key_combination
    split_ifs with h
    · exact Finset.singleton_nonempty _
    · exact Finset.nonempty_iff_ne_empty.mpr h
  · intro h
    unfold parse_key_combination
    rw [if_pos (parsedKeys_eq_empty em s h)]

/-- C7, witness: with a resolver that knows no key, the string zzz parses
to the F12 singleton, which is non-empty. -/
theorem parse_default_witness :
    (parse_key_combination (fun _ => none) "zzz").Nonempty ∧
    parse_key_combination (fun _ => none) "zzz" = {KEY_F12} :=
  ⟨(parse_always_nonempty (fun _ => none) "zzz").1,
   (parse_always_nonempty (fun _ => none) "zzz").2 (by decide)⟩

/-- C9.  Parsing is invariant under casing (two strings with the same
lowering parse identically), and the alias variants Ctrl+Alt+D and
lctrl+lalt+d resolve to the same target set. -/
theorem parse_case_insensitive (em : List Char → Option ℕ) (s₁ s₂ : String)
    (h : lowerStr s₁.data = lowerStr s₂.data) :
    parse_key_combination em s₁ = parse_key_combination em s₂ ∧
    parse_key_combination ecodesTable "Ctrl+Alt+D" =
      parse_key_combination ecodesTable "lctrl+lalt+d" := by
  constructor
  · unfold parse_key_combination parsedKeys comboTokens
    rw [h]
  · decide

/-- C9, witness: F12 and f12 parse identically under the concrete table. -/
theorem parse_case_insensitive_witness :
    parse_key_combination ecodesTable "F12" =
      parse_key_combination ecodesTable "f12" ∧
    parse_key_combination ecodesTable "Ctrl+Alt+D" =
      parse_key_combination ecodesTable "lctrl+lalt+d" :=
  parse_case_insensitive ecodesTable "F12" "f12" (by decide)

end Hyprwhspr
